import Mathlib

/-!
# Domain-trust and invite-redemption core: a shallow embedding

This file embeds the domain-trust and invite-redemption subsystem of the
repository (convex/domains.ts, the invite-link mutations, and the token
utilities in convex/lib/tokens.ts together with their duplicate variant)
into Lean, and proves or refutes the specification claims about it.

Modelling conventions:
- Document ids are natural numbers; the store assigns `nextId` on insert.
- JS numbers used as timestamps and counters are modelled as `Int`
  (the claims never exercise fractional values).
- Random bytes are modelled as `Nat` values below 256, supplied to the
  generator functions as explicit arguments (the secure random source is
  an external collaborator).
- A Convex mutation handler that throws rolls back all of its writes, so
  a mutation is a function returning `Except`: an error result leaves the
  store untouched by construction.
- JS truthiness on optional numeric fields (`if (invite.revokedAt)`) is
  modelled by `jsTruthyNum`: `none` and `some 0` are falsy.
-/

namespace Kiiaren

/-! ## Token generator (convex/lib/tokens.ts and its duplicate variant) -/

/-- Join-code alphabet of convex/lib/tokens.ts:
`'ABCDEFGHJKMNPQRSTUVWXYZ023456789'` (23 letters and 9 digits, 32 symbols). -/
def JOIN_CODE_ALPHABET_A : List Char := "ABCDEFGHJKMNPQRSTUVWXYZ023456789".toList

/-- Join-code alphabet of the duplicate token-utilities file:
`'ABCDEFGHJKMNPQRSTUVWXYZ23456789'`.  Its comment claims 32 symbols, but the
string holds 23 letters and only 8 digits: 31 symbols. -/
def JOIN_CODE_ALPHABET_B : List Char := "ABCDEFGHJKMNPQRSTUVWXYZ23456789".toList

/-- JS string indexing `s[i]`: a character for `i < s.length`, `undefined`
(here `none`) otherwise. -/
def jsCharAt (s : List Char) (i : Nat) : Option Char := s.get? i

/-- Source `joinCodeCharFromByte(randomByte)`: index the alphabet with the low five
bits of the byte (`randomByte & 0x1f`). -/
def joinCodeCharFromByte (alphabet : List Char) (randomByte : Nat) : Option Char :=
  jsCharAt alphabet (randomByte &&& 0x1f)

/-- JS `code += char!`: appending `undefined` to a string appends the text
`"undefined"`, it does not throw. -/
def jsAppendMaybeChar (code : List Char) (char : Option Char) : List Char :=
  match char with
  | some c => code ++ [c]
  | none => code ++ "undefined".toList

/-- Source `generateJoinCode()`: one character per secure-random byte
(the source draws exactly 6 bytes via `randomBytes(6)`, modelled as the
`bytes` argument). -/
def generateJoinCode (alphabet : List Char) (bytes : List Nat) : List Char :=
  bytes.foldl (fun code b => jsAppendMaybeChar code (joinCodeCharFromByte alphabet b)) []

/-- Standard base64 alphabet (`BASE64_CHARS` in convex/lib/tokens.ts). -/
def BASE64_CHARS : List Char :=
  "ABCDEFGHIJKLMNOPQRSTUVWXYZabcdefghijklmnopqrstuvwxyz0123456789+/".toList

/-- Lookup `BASE64_CHARS[i]` for an index already masked to six bits. -/
def b64char (i : Nat) : Char := BASE64_CHARS.getD i 'A'

/-- One iteration of the encoding loop of `base64EncodeBytes`: three input
bytes (absent ones read as 0) become four output characters, with `'='`
padding when fewer than three bytes remain. -/
def b64chunk (b0 b1 b2 : Nat) (has1 has2 : Bool) : List Char :=
  [ b64char ((b0 >>> 2) &&& 0x3f),
    b64char (((b0 <<< 4) ||| (b1 >>> 4)) &&& 0x3f),
    if has1 then b64char (((b1 <<< 2) ||| (b2 >>> 6)) &&& 0x3f) else '=',
    if has2 then b64char (b2 &&& 0x3f) else '=' ]

/-- Source `base64EncodeBytes(bytes)`: the pure bit-level base64 encoder used as the
fallback when `Buffer`/`btoa` are unavailable; processes 3 bytes at a time. -/
def base64EncodeBytes : List Nat → List Char
  | [] => []
  | [b0] => b64chunk b0 0 0 false false
  | [b0, b1] => b64chunk b0 b1 0 true false
  | b0 :: b1 :: b2 :: rest => b64chunk b0 b1 b2 true true ++ base64EncodeBytes rest

/-- The two URL-safe substitutions of `base64urlEncode`
(`+` to `-`, then `/` to `_`), fused into one character map. -/
def toUrlSafeChar (c : Char) : Char :=
  if c == '+' then '-' else if c == '/' then '_' else c

/-- Source `base64urlEncode(bytes)`: base64-encode, substitute `+` and `/`, strip all
`=` padding. -/
def base64urlEncode (bytes : List Nat) : List Char :=
  ((base64EncodeBytes bytes).map toUrlSafeChar).filter (fun c => c ≠ '=')

/-- Source `generateVerificationToken()`: base64url of 24 secure-random bytes
(supplied as the argument). -/
def generateVerificationToken (bytes : List Nat) : List Char := base64urlEncode bytes

/-- Source `generateInviteCode()`: base64url of 16 secure-random bytes
(supplied as the argument). -/
def generateInviteCode (bytes : List Nat) : List Char := base64urlEncode bytes

/-- The character class `[A-Za-z0-9_-]` required of base64url output. -/
def isBase64UrlChar (c : Char) : Bool :=
  ('A' ≤ c && c ≤ 'Z') || ('a' ≤ c && c ≤ 'z') || ('0' ≤ c && c ≤ '9') || c == '-' || c == '_'

/-! ## Data model (convex/schema.ts) -/

/-- Status of a claimed domain. -/
inductive DomainStatus
  | pending
  | verified
  | failed
deriving DecidableEq

/-- A `workspaces` document.  `domainVerified` and `joinCodeEnabled` are
optional in the schema (backwards compatibility), hence `Option Bool`. -/
structure Workspace where
  wid : Nat
  name : String
  userId : Nat
  joinCode : String
  domainVerified : Option Bool
  joinCodeEnabled : Option Bool
deriving DecidableEq

/-- A `domains` document. -/
structure DomainRow where
  did : Nat
  workspaceId : Nat
  domain : String
  verificationToken : String
  status : DomainStatus
  verifiedAt : Option Int
  createdAt : Int
  createdBy : Nat
deriving DecidableEq

/-- An invite-link scope: whole workspace or one channel. -/
inductive InviteScope
  | workspace
  | channel (channelId : Nat)
deriving DecidableEq

/-- An `inviteLinks` document. -/
structure InviteLink where
  lid : Nat
  workspaceId : Nat
  code : String
  createdBy : Nat
  createdAt : Int
  expiresAt : Int
  maxUses : Option Int
  usedCount : Int
  scope : InviteScope
  revokedAt : Option Int
deriving DecidableEq

/-- Member role. -/
inductive Role
  | admin
  | member
deriving DecidableEq

/-- A `members` document. -/
structure Member where
  userId : Nat
  workspaceId : Nat
  role : Role
deriving DecidableEq

/-- A `channels` document (only the field the core reads). -/
structure Channel where
  cid : Nat
  workspaceId : Nat
deriving DecidableEq

/-- A `users` document (only the field the core reads). -/
structure User where
  uid : Nat
  name : Option String
deriving DecidableEq

/-- The persistent store.  Lists are in insertion (creation) order, matching
the iteration order of the indexed exact-match queries the core issues;
`nextId` models the store's id assignment on insert. -/
structure DB where
  workspaces : List Workspace
  domains : List DomainRow
  inviteLinks : List InviteLink
  members : List Member
  channels : List Channel
  users : List User
  nextId : Nat
deriving DecidableEq

/-- JS truthiness of an optional numeric field (`if (invite.revokedAt)`):
`undefined` and `0` are falsy. -/
def jsTruthyNum : Option Int → Bool
  | none => false
  | some t => t != 0

/-- Modelled from the spec: `requireWorkspaceAdmin` from
convex/lib/access_control.ts, which the source imports but whose file is not
among the sources; §4.5 specifies it as "Member row with role=`admin` or
reject".  The caller id is the already-authenticated user. -/
def requireWorkspaceAdmin (db : DB) (userId wsId : Nat) : Bool :=
  db.members.any (fun m => m.userId == userId && m.workspaceId == wsId && m.role == Role.admin)

/-! ## Domain registry (convex/domains.ts) -/

/-- Leading- and trailing-whitespace removal (JS `String.prototype.trim`),
expressed on the character list. -/
def trimChars (l : List Char) : List Char :=
  ((l.dropWhile Char.isWhitespace).reverse.dropWhile Char.isWhitespace).reverse

/-- Source `normalizeDomain`: lowercase, strip one leading `www.`, trim.
JS `replace(/^www\./, ...)` replaces at most the single anchored occurrence.
The string operations are expressed on the character list so that they stay
executable inside the kernel. -/
def normalizeDomain (domain : String) : String :=
  String.mk (trimChars
    (if (domain.toList.map Char.toLower).take 4 = "www.".toList then
      (domain.toList.map Char.toLower).drop 4
     else domain.toList.map Char.toLower))

/-- A lowercase-alphanumeric character, the class `[a-z0-9]`. -/
def isAlnumLower (c : Char) : Bool :=
  ('a' ≤ c && c ≤ 'z') || ('0' ≤ c && c ≤ '9')

/-- A character of the class `[a-z0-9-]`. -/
def isLabelChar (c : Char) : Bool := isAlnumLower c || c == '-'

/-- One dot-free label matching `[a-z0-9]([a-z0-9-]*[a-z0-9])?`: nonempty,
alphanumeric at both ends, dashes allowed inside. -/
def isDomainLabel (s : List Char) : Bool :=
  !s.isEmpty && isAlnumLower (s.headD 'x') && isAlnumLower (s.getLastD 'x') &&
    s.all isLabelChar

/-- The final label matching `[a-z]{2,}`. -/
def isTldLabel (s : List Char) : Bool :=
  decide (2 ≤ s.length) && s.all (fun c => 'a' ≤ c && c ≤ 'z')

/-- JS `String.prototype.split` with a one-character separator. -/
def jsSplit (sep : Char) : List Char → List (List Char)
  | [] => [[]]
  | c :: rest =>
    let r := jsSplit sep rest
    if c = sep then [] :: r
    else
      match r with
      | [] => [[c]]
      | h :: t => (c :: h) :: t

/-- Source `isValidDomain`: the anchored regex
`^[a-z0-9]([a-z0-9-]*[a-z0-9])?(\.[a-z0-9]([a-z0-9-]*[a-z0-9])?)*\.[a-z]{2,}$`
decomposed along the dots (labels never contain a dot, so the regex matches
exactly when every dot-separated part but the last is a label and the last
part is a 2+-letter TLD). -/
def isValidDomain (domain : String) : Bool :=
  decide (2 ≤ (jsSplit '.' domain.toList).length) &&
    (jsSplit '.' domain.toList).dropLast.all isDomainLabel &&
    isTldLabel ((jsSplit '.' domain.toList).getLastD [])

/-- Constant `MAX_COLLISION_RETRIES` from convex/lib/tokens.ts. -/
def MAX_COLLISION_RETRIES : Nat := 5

/-- The collision-retry loop shared by `addDomain` and `inviteLinks.create`:
up to `MAX_COLLISION_RETRIES` attempts, each drawing the next candidate from
the generator (modelled as the `candidates` stream) and accepting the first
one whose exact-match index lookup finds nothing. -/
def pickFreshToken (candidates : List String) (taken : String → Bool) : Option String :=
  ((candidates.take MAX_COLLISION_RETRIES).filter (fun c => !taken c)).head?

/-- The pending row `addDomain` inserts. -/
def mkPendingDomain (did ws : Nat) (domain tok : String) (now : Int)
    (caller : Nat) : DomainRow :=
  { did := did, workspaceId := ws, domain := domain, verificationToken := tok,
    status := .pending, verifiedAt := none, createdAt := now, createdBy := caller }

/-- The patch `updateStatus` applies to the domain row. -/
def setDomainStatus (status : DomainStatus) (verifiedAt : Option Int)
    (d : DomainRow) : DomainRow :=
  { d with status := status, verifiedAt := verifiedAt }

/-- The workspace patch on transition to `verified`:
`domainVerified := true`, `joinCodeEnabled := false`. -/
def setWorkspaceVerified (w : Workspace) : Workspace :=
  { w with domainVerified := some true, joinCodeEnabled := some false }

/-- The workspace patch when the last verified domain is removed:
`domainVerified := false`, `joinCodeEnabled := true`. -/
def setWorkspaceUnverified (w : Workspace) : Workspace :=
  { w with domainVerified := some false, joinCodeEnabled := some true }

/-- Business-rejection kinds thrown by the domain registry (the source throws
`Error` with a message; we model the distinct messages as variants). -/
inductive DomainError
  | notAdmin
  | invalidDomainFormat
  | alreadyAddedToThisWorkspace
  | alreadyClaimedByAnotherWorkspace
  | tokenCollision
  | domainNotFound
  | workspaceMissing
deriving DecidableEq

/-- Source `addDomain(workspaceId, domain)`.  `tokenCandidates` is the stream of
`generateVerificationToken()` outputs; `now` is `Date.now()`.  A thrown error
rolls the transaction back, hence `Except`. -/
def addDomain (db : DB) (callerId wsId : Nat) (rawDomain : String)
    (tokenCandidates : List String) (now : Int) : Except DomainError (DB × Nat) :=
  if !requireWorkspaceAdmin db callerId wsId then .error .notAdmin
  else if !isValidDomain (normalizeDomain rawDomain) then .error .invalidDomainFormat
  else
    match db.domains.find? (fun d => d.domain == normalizeDomain rawDomain) with
    | some existingDomain =>
      if existingDomain.workspaceId == wsId then .error .alreadyAddedToThisWorkspace
      else .error .alreadyClaimedByAnotherWorkspace
    | none =>
      match pickFreshToken tokenCandidates
          (fun c => (db.domains.find? (fun d => d.verificationToken == c)).isSome) with
      | none => .error .tokenCollision
      | some verificationToken =>
        .ok ({ db with
               domains := db.domains ++
                 [mkPendingDomain db.nextId wsId (normalizeDomain rawDomain)
                   verificationToken now callerId],
               nextId := db.nextId + 1 },
             db.nextId)

/-- The projection `listDomains` returns per domain row. -/
structure DomainListEntry where
  id : Nat
  domain : String
  status : DomainStatus
  verificationToken : String
  verifiedAt : Option Int
  createdAt : Int
deriving DecidableEq

/-- The projection `listDomains` applies to each row. -/
def domainListEntryOf (d : DomainRow) : DomainListEntry :=
  { id := d.did, domain := d.domain, status := d.status,
    verificationToken := d.verificationToken, verifiedAt := d.verifiedAt,
    createdAt := d.createdAt }

/-- Source `listDomains(workspaceId)`: admin-only; all domain rows of the workspace,
projected. -/
def listDomains (db : DB) (callerId wsId : Nat) : Except DomainError (List DomainListEntry) :=
  if !requireWorkspaceAdmin db callerId wsId then .error .notAdmin
  else .ok ((db.domains.filter (fun d => d.workspaceId == wsId)).map domainListEntryOf)

/-- Source `removeDomain(domainId)`: delete the row, then re-enable join codes if no
verified domain remains on the workspace.  `db.patch` of an absent workspace
id throws (`workspaceMissing`), rolling back. -/
def removeDomain (db : DB) (callerId domainId : Nat) : Except DomainError DB :=
  match db.domains.find? (fun d => d.did == domainId) with
  | none => .error .domainNotFound
  | some domain =>
    if !requireWorkspaceAdmin db callerId domain.workspaceId then .error .notAdmin
    else
      match (db.domains.filter (fun d => !(d.did == domainId))).find? (fun d =>
          d.workspaceId == domain.workspaceId && d.status == DomainStatus.verified) with
      | some _ => .ok { db with domains := db.domains.filter (fun d => !(d.did == domainId)) }
      | none =>
        match db.workspaces.find? (fun w => w.wid == domain.workspaceId) with
        | none => .error .workspaceMissing
        | some _ =>
          .ok { db with
            domains := db.domains.filter (fun d => !(d.did == domainId)),
            workspaces := db.workspaces.map (fun w =>
              if w.wid == domain.workspaceId then setWorkspaceUnverified w else w) }

/-- Source `updateStatus(domainId, status, verifiedAt?)` (internal mutation): patch
the row; on transition to `verified`, also patch the owning workspace's
`domainVerified := true` and `joinCodeEnabled := false`. -/
def updateStatus (db : DB) (domainId : Nat) (status : DomainStatus)
    (verifiedAt : Option Int) : Except DomainError DB :=
  match db.domains.find? (fun d => d.did == domainId) with
  | none => .error .domainNotFound
  | some domain =>
    if status == DomainStatus.verified then
      match db.workspaces.find? (fun w => w.wid == domain.workspaceId) with
      | none => .error .workspaceMissing
      | some _ =>
        .ok { db with
          domains := db.domains.map (fun d =>
            if d.did == domainId then setDomainStatus status verifiedAt d else d),
          workspaces := db.workspaces.map (fun w =>
            if w.wid == domain.workspaceId then setWorkspaceVerified w else w) }
    else
      .ok { db with
        domains := db.domains.map (fun d =>
          if d.did == domainId then setDomainStatus status verifiedAt d else d) }

/-- The lowercased character list of an email (`email.toLowerCase()`). -/
def jsLower (email : String) : List Char := email.toList.map Char.toLower

/-- The part after the `'@'` of a lowercased email with exactly one `'@'`. -/
def emailDomainOf (email : String) : String :=
  String.mk ((jsSplit '@' (jsLower email)).getD 1 [])

/-- The result shape of `checkEmailDomain`.  The source field is named
`matches`, a reserved word in Lean, so it is called `matched` here. -/
structure EmailDomainCheck where
  matched : Bool
  domain : Option String
deriving DecidableEq

/-- Source `checkEmailDomain(workspaceId, email)`: split the lowercased email at
`'@'`; anything but exactly two parts is "no match"; otherwise look up a
`verified` domain row for (workspace, extracted domain). -/
def checkEmailDomain (db : DB) (wsId : Nat) (email : String) : EmailDomainCheck :=
  let emailParts := jsSplit '@' (jsLower email)
  if emailParts.length ≠ 2 then { matched := false, domain := none }
  else
    let emailDomain := emailDomainOf email
    match db.domains.find? (fun d =>
        d.workspaceId == wsId && d.domain == emailDomain &&
        d.status == DomainStatus.verified) with
    | some verifiedDomain => { matched := true, domain := some verifiedDomain.domain }
    | none => { matched := false, domain := none }

/-! ## Invite link registry (the invite-link mutations file) -/

/-- The invite-link row `create` inserts: `usedCount` starts at 0, no
`revokedAt`. -/
def mkInviteLink (lid ws : Nat) (code : String) (caller : Nat)
    (now expiresAt : Int) (maxUses : Option Int) (scope : InviteScope) : InviteLink :=
  { lid := lid, workspaceId := ws, code := code, createdBy := caller,
    createdAt := now, expiresAt := expiresAt, maxUses := maxUses,
    usedCount := 0, scope := scope, revokedAt := none }

/-- The patch `revoke` applies: `revokedAt := now`. -/
def setRevoked (now : Int) (l : InviteLink) : InviteLink :=
  { l with revokedAt := some now }

/-- Business-rejection kinds thrown by the invite-link registry. -/
inductive InviteError
  | notAdmin
  | expiryOutOfRange
  | maxUsesTooSmall
  | channelNotInWorkspace
  | tokenCollision
  | inviteNotFound
  | alreadyRevoked
deriving DecidableEq

/-- The condition `invite.maxUses && invite.usedCount >= invite.maxUses`:
`maxUses` must be truthy (present and nonzero), then the comparison runs. -/
def isAtMaxUses (invite : InviteLink) : Bool :=
  match invite.maxUses with
  | none => false
  | some m => m != 0 && decide (m ≤ invite.usedCount)

/-- Source `inviteLinks.create(workspaceId, expiresInHours, scope, maxUses?)`.
`codeCandidates` is the stream of `generateInviteCode()` outputs, `now` is
`Date.now()`. -/
def create (db : DB) (callerId wsId : Nat) (expiresInHours : Int)
    (scope : InviteScope) (maxUses : Option Int) (codeCandidates : List String)
    (now : Int) : Except InviteError (DB × Nat × String) :=
  if !requireWorkspaceAdmin db callerId wsId then .error .notAdmin
  else if expiresInHours < 1 || 720 < expiresInHours then .error .expiryOutOfRange
  else if (match maxUses with | some m => decide (m < 1) | none => false) then
    .error .maxUsesTooSmall
  else if !(match scope with
      | .workspace => true
      | .channel channelId =>
        match db.channels.find? (fun c => c.cid == channelId) with
        | none => false
        | some channel => channel.workspaceId == wsId) then
    .error .channelNotInWorkspace
  else
    match pickFreshToken codeCandidates
        (fun c => (db.inviteLinks.find? (fun l => l.code == c)).isSome) with
    | none => .error .tokenCollision
    | some code =>
      .ok ({ db with
             inviteLinks := db.inviteLinks ++
               [mkInviteLink db.nextId wsId code callerId now
                 (now + expiresInHours * (60 * 60 * 1000)) maxUses scope],
             nextId := db.nextId + 1 },
           db.nextId, code)

/-- The preview `getByCode` returns for a live link. -/
structure InvitePreview where
  id : Nat
  workspaceId : Nat
  workspaceName : String
  expiresAt : Int
  scope : InviteScope
deriving DecidableEq

/-- Source `inviteLinks.getByCode(code)`: public read-only lookup; every dead state
(not found, expired, revoked, exhausted, and also a missing workspace row)
collapses to `null`. -/
def getByCode (db : DB) (code : String) (now : Int) : Option InvitePreview :=
  match db.inviteLinks.find? (fun l => l.code == code) with
  | none => none
  | some invite =>
    if invite.expiresAt < now then none
    else if jsTruthyNum invite.revokedAt then none
    else if isAtMaxUses invite then none
    else
      match db.workspaces.find? (fun w => w.wid == invite.workspaceId) with
      | none => none
      | some workspace =>
        some { id := invite.lid, workspaceId := invite.workspaceId,
               workspaceName := workspace.name, expiresAt := invite.expiresAt,
               scope := invite.scope }

/-- The status string `list` computes at read time: `revoked` wins over
`expired`, which wins over `exhausted`, else `active`. -/
def inviteStatus (invite : InviteLink) (now : Int) : String :=
  if jsTruthyNum invite.revokedAt then "revoked"
  else if invite.expiresAt < now then "expired"
  else if isAtMaxUses invite then "exhausted"
  else "active"

/-- The projection `list` returns per invite link. -/
structure InviteListEntry where
  id : Nat
  code : String
  createdById : Nat
  createdByName : String
  createdAt : Int
  expiresAt : Int
  maxUses : Option Int
  usedCount : Int
  scope : InviteScope
  revokedAt : Option Int
  status : String
deriving DecidableEq

/-- Source `inviteLinks.list(workspaceId)`: admin-only; all invites of the workspace
with creator display name (`creator?.name ?? 'Unknown'`) and computed status. -/
def list (db : DB) (callerId wsId : Nat) (now : Int) :
    Except InviteError (List InviteListEntry) :=
  if !requireWorkspaceAdmin db callerId wsId then .error .notAdmin
  else .ok ((db.inviteLinks.filter (fun l => l.workspaceId == wsId)).map (fun invite =>
    { id := invite.lid, code := invite.code, createdById := invite.createdBy,
      createdByName :=
        (match db.users.find? (fun u => u.uid == invite.createdBy) with
         | some creator => creator.name.getD "Unknown"
         | none => "Unknown"),
      createdAt := invite.createdAt, expiresAt := invite.expiresAt,
      maxUses := invite.maxUses, usedCount := invite.usedCount,
      scope := invite.scope, revokedAt := invite.revokedAt,
      status := inviteStatus invite now }))

/-- Source `inviteLinks.revoke(inviteLinkId)`: admin-only; rejects when `revokedAt`
is already (truthily) set; otherwise patches `revokedAt := now`. -/
def revoke (db : DB) (callerId inviteLinkId : Nat) (now : Int) :
    Except InviteError DB :=
  match db.inviteLinks.find? (fun l => l.lid == inviteLinkId) with
  | none => .error .inviteNotFound
  | some invite =>
    if !requireWorkspaceAdmin db callerId invite.workspaceId then .error .notAdmin
    else if jsTruthyNum invite.revokedAt then .error .alreadyRevoked
    else .ok { db with inviteLinks := db.inviteLinks.map (fun l =>
      if l.lid == inviteLinkId then setRevoked now l else l) }

/-- The discriminated result of `validateForRedemption`. -/
inductive RedemptionResult
  | invalid (error : String)
  | valid (workspaceId : Nat) (workspaceName : String) (scope : InviteScope)
deriving DecidableEq

/-- Source `inviteLinks.validateForRedemption(code)`: public pre-check; precise about
the first dead condition that holds, in source order: not found, expired,
revoked, exhausted, workspace missing. -/
def validateForRedemption (db : DB) (code : String) (now : Int) : RedemptionResult :=
  match db.inviteLinks.find? (fun l => l.code == code) with
  | none => .invalid "Invite link not found."
  | some invite =>
    if invite.expiresAt < now then .invalid "Invite link has expired."
    else if jsTruthyNum invite.revokedAt then .invalid "Invite link has been revoked."
    else if isAtMaxUses invite then .invalid "Invite link has reached maximum uses."
    else
      match db.workspaces.find? (fun w => w.wid == invite.workspaceId) with
      | none => .invalid "Workspace not found."
      | some workspace => .valid invite.workspaceId workspace.name invite.scope

/-! ## The workspace-flag invariant of the spec -/

/-- The spec invariant: `domainVerified == true` on a workspace implies some
`verified` domain row for that workspace. -/
def DomainsInv (db : DB) : Prop :=
  ∀ w ∈ db.workspaces, w.domainVerified = some true →
    ∃ d ∈ db.domains, d.workspaceId = w.wid ∧ d.status = DomainStatus.verified

instance decidableDomainsInv (db : DB) : Decidable (DomainsInv db) :=
  inferInstanceAs (Decidable (∀ w ∈ db.workspaces, w.domainVerified = some true →
    ∃ d ∈ db.domains, d.workspaceId = w.wid ∧ d.status = DomainStatus.verified))

/-! ## Concrete store states used as witnesses and counterexamples -/

/-- Workspace 10 with join codes still enabled. -/
def wsA : Workspace :=
  { wid := 10, name := "Acme", userId := 1, joinCode := "A3KM7P",
    domainVerified := none, joinCodeEnabled := some true }

/-- A second workspace, id 20. -/
def wsB : Workspace :=
  { wid := 20, name := "Beta", userId := 2, joinCode := "B4KM7Q",
    domainVerified := none, joinCodeEnabled := some true }

/-- User 1 is admin of workspace 10. -/
def memA : Member := { userId := 1, workspaceId := 10, role := .admin }

/-- User 2 is admin of workspace 20. -/
def memB : Member := { userId := 2, workspaceId := 20, role := .admin }

/-- Two workspaces, two admins, nothing else. -/
def dbBase : DB :=
  { workspaces := [wsA, wsB], domains := [], inviteLinks := [], members := [memA, memB],
    channels := [], users := [], nextId := 2 }

/-- A pending domain row for workspace 10. -/
def domPendingA : DomainRow :=
  { did := 1, workspaceId := 10, domain := "acme.com", verificationToken := "T0",
    status := .pending, verifiedAt := none, createdAt := 0, createdBy := 1 }

/-- Store `dbBase` with the pending domain row. -/
def dbC1 : DB := { dbBase with domains := [domPendingA] }

/-- Expected result of verifying that row at time 5. -/
def dbC1v : DB :=
  { dbBase with
    domains := [{ domPendingA with status := .verified, verifiedAt := some 5 }],
    workspaces := [{ wsA with domainVerified := some true, joinCodeEnabled := some false },
                   wsB] }

/-- The row `addDomain dbBase 1 10 "WWW.Acme.COM " ["T1"] 3` inserts. -/
def rowAcme : DomainRow :=
  { did := 2, workspaceId := 10, domain := "acme.com", verificationToken := "T1",
    status := .pending, verifiedAt := none, createdAt := 3, createdBy := 1 }

/-- Expected result of that `addDomain` call. -/
def dbAdded : DB := { dbBase with domains := [rowAcme], nextId := 3 }

/-- A verified domain row for workspace 10. -/
def domVerA : DomainRow :=
  { did := 1, workspaceId := 10, domain := "acme.com", verificationToken := "T0",
    status := .verified, verifiedAt := some 5, createdAt := 0, createdBy := 1 }

/-- Workspace 10 after domain verification: flags set, join codes off. -/
def wsV : Workspace :=
  { wid := 10, name := "Acme", userId := 1, joinCode := "A3KM7P",
    domainVerified := some true, joinCodeEnabled := some false }

/-- A store satisfying the invariant: one verified workspace, one verified row. -/
def dbC2 : DB :=
  { workspaces := [wsV], domains := [domVerA], inviteLinks := [], members := [memA],
    channels := [], users := [], nextId := 2 }

/-- Store `dbC2` after `updateStatus(1, 'failed')`: flag still set, no verified row. -/
def dbC2bad : DB :=
  { dbC2 with domains := [{ domVerA with status := .failed, verifiedAt := none }] }

/-- The row `addDomain dbC2 1 10 "beta.com" ["T2"] 4` inserts. -/
def rowBeta : DomainRow :=
  { did := 2, workspaceId := 10, domain := "beta.com", verificationToken := "T2",
    status := .pending, verifiedAt := none, createdAt := 4, createdBy := 1 }

/-- Expected result of that `addDomain` call on `dbC2`. -/
def dbC2add : DB := { dbC2 with domains := [domVerA, rowBeta], nextId := 3 }

/-- Expected result of `removeDomain dbC2 1 1`: row gone, flags reverted. -/
def dbC2rm : DB :=
  { dbC2 with
    domains := [],
    workspaces := [{ wsV with domainVerified := some false, joinCodeEnabled := some true }] }

/-- A live invite link whose workspace row is missing (id 9 exists nowhere). -/
def linkC4 : InviteLink :=
  { lid := 5, workspaceId := 9, code := "c4", createdBy := 1, createdAt := 0,
    expiresAt := 100, maxUses := none, usedCount := 0, scope := .workspace,
    revokedAt := none }

/-- A store holding only that orphaned invite link. -/
def dbC4 : DB :=
  { workspaces := [], domains := [], inviteLinks := [linkC4], members := [],
    channels := [], users := [], nextId := 6 }

/-- The same live link, pointed at the existing workspace 10. -/
def linkC4w : InviteLink := { linkC4 with workspaceId := 10 }

/-- A store where that link is alive and its workspace exists. -/
def dbC4w : DB := { dbBase with inviteLinks := [linkC4w], nextId := 6 }

/-- A live, not-yet-revoked invite link on workspace 10. -/
def linkC8 : InviteLink :=
  { lid := 5, workspaceId := 10, code := "c8", createdBy := 1, createdAt := 0,
    expiresAt := 100, maxUses := some 3, usedCount := 0, scope := .workspace,
    revokedAt := none }

/-- Store `dbBase` plus that link. -/
def dbC8 : DB := { dbBase with inviteLinks := [linkC8], nextId := 6 }

/-- The same link already revoked at time 7. -/
def linkC8r : InviteLink := { linkC8 with revokedAt := some 7 }

/-- Store `dbBase` plus the revoked link. -/
def dbC8r : DB := { dbBase with inviteLinks := [linkC8r], nextId := 6 }

/-- Store `dbBase` with a verified `acme.com` row on workspace 10. -/
def dbC9 : DB := { dbBase with domains := [domVerA] }

/-- An invite link that is simultaneously expired (at now = 100) and revoked. -/
def linkC10 : InviteLink :=
  { lid := 5, workspaceId := 10, code := "c10", createdBy := 1, createdAt := 0,
    expiresAt := 50, maxUses := none, usedCount := 0, scope := .workspace,
    revokedAt := some 60 }

/-- Store `dbBase` plus that link and its creator's user row. -/
def dbC10 : DB :=
  { dbBase with
    inviteLinks := [linkC10],
    users := [{ uid := 1, name := some "Ann" }],
    nextId := 6 }

/-- The row `list dbC10 1 10 100` returns for `linkC10`. -/
def entryC10 : InviteListEntry :=
  { id := 5, code := "c10", createdById := 1, createdByName := "Ann", createdAt := 0,
    expiresAt := 50, maxUses := none, usedCount := 0, scope := .workspace,
    revokedAt := some 60, status := "revoked" }

/-- The link `create dbBase 1 10 24 workspace (some 5) ["K1"] 100` inserts. -/
def linkC7 : InviteLink :=
  mkInviteLink 2 10 "K1" 1 100 (100 + 24 * (60 * 60 * 1000)) (some 5) .workspace

/-- Expected result of that `create` call. -/
def dbC7res : DB := { dbBase with inviteLinks := [linkC7], nextId := 3 }

/-! ## General list helpers -/

/-- Running `find?` over a pointwise patch that only rewrites matching elements and
preserves the predicate. -/
theorem find?_map_patch {α : Type} (p : α → Bool) (g : α → α)
    (hg : ∀ a, p (g a) = p a) :
    ∀ l : List α, (l.map (fun a => if p a then g a else a)).find? p = (l.find? p).map g
  | [] => by simp
  | a :: t => by
    by_cases h : p a = true
    · simp only [List.map_cons, if_pos h]
      rw [List.find?_cons_of_pos _ (by rw [hg]; exact h), List.find?_cons_of_pos _ h]
      simp
    · simp only [List.map_cons, if_neg h]
      rw [List.find?_cons_of_neg _ h, List.find?_cons_of_neg _ h]
      exact find?_map_patch p g hg t

/-- Elements the patch does not touch stay in the patched list. -/
theorem mem_map_patch_self {α : Type} (p : α → Bool) (g : α → α) {l : List α} {x : α}
    (hx : x ∈ l) (hpx : p x = false) :
    x ∈ l.map (fun a => if p a then g a else a) := by
  have hfx : (fun a => if p a then g a else a) x = x := by simp [hpx]
  simpa [hfx] using List.mem_map_of_mem (fun a => if p a then g a else a) hx

/-- The image of a matching element is in the patched list. -/
theorem mem_map_patch_image {α : Type} (p : α → Bool) (g : α → α) {l : List α} {x : α}
    (hx : x ∈ l) (hpx : p x = true) :
    g x ∈ l.map (fun a => if p a then g a else a) := by
  have hfx : (fun a => if p a then g a else a) x = g x := by simp [hpx]
  simpa [hfx] using List.mem_map_of_mem (fun a => if p a then g a else a) hx

/-- Function `jsSplit` produces one part per separator occurrence plus one. -/
theorem jsSplit_length (sep : Char) : ∀ l : List Char,
    (jsSplit sep l).length = l.count sep + 1
  | [] => by simp [jsSplit]
  | c :: rest => by
    have ih := jsSplit_length sep rest
    by_cases h : c = sep
    · simp [jsSplit, h, ih, List.count_cons]
    · rcases hr : jsSplit sep rest with _ | ⟨hd, tl⟩
      · rw [hr] at ih; simp at ih
      · rw [hr] at ih
        simp only [jsSplit, if_neg h, hr]
        simp only [List.length_cons] at ih ⊢
        have hcount : (c :: rest).count sep = rest.count sep := by
          simp [List.count_cons, h]
        omega

/-! ## Execution shapes of the mutations -/

/-- A successful `addDomain` appends exactly one pending row, carrying the
normalized domain and the fresh id. -/
theorem addDomain_ok_shape {db : DB} {caller ws : Nat} {raw : String}
    {cands : List String} {now : Int} {db1 : DB} {did : Nat}
    (h : addDomain db caller ws raw cands now = .ok (db1, did)) :
    requireWorkspaceAdmin db caller ws = true ∧ did = db.nextId ∧
    db.domains.find? (fun d => d.domain == normalizeDomain raw) = none ∧
    ∃ tok, db1 = { db with
      domains := db.domains ++
        [mkPendingDomain db.nextId ws (normalizeDomain raw) tok now caller],
      nextId := db.nextId + 1 } := by
  unfold addDomain at h
  split at h
  · cases h
  next hadm =>
    split at h
    · cases h
    split at h
    · split at h <;> cases h
    next hfind =>
      split at h
      · cases h
      next tok htok =>
        simp only [Except.ok.injEq, Prod.mk.injEq] at h
        exact ⟨by simpa using hadm, h.2.symm, hfind, tok, h.1.symm⟩

/-- A successful `updateStatus` patches the row, and additionally patches the
owning workspace's flags exactly when the new status is `verified`. -/
theorem updateStatus_ok_shape {db : DB} {domainId : Nat} {status : DomainStatus}
    {verifiedAt : Option Int} {db1 : DB}
    (h : updateStatus db domainId status verifiedAt = .ok db1) :
    ∃ d, db.domains.find? (fun x => x.did == domainId) = some d ∧
      ((status = DomainStatus.verified ∧
        db1 = { db with
          domains := db.domains.map (fun x => if x.did == domainId then
            setDomainStatus status verifiedAt x else x),
          workspaces := db.workspaces.map (fun w => if w.wid == d.workspaceId then
            setWorkspaceVerified w else w) }) ∨
       (status ≠ DomainStatus.verified ∧
        db1 = { db with
          domains := db.domains.map (fun x => if x.did == domainId then
            setDomainStatus status verifiedAt x else x) })) := by
  unfold updateStatus at h
  split at h
  · cases h
  next d hfind =>
    refine ⟨d, hfind, ?_⟩
    split at h
    next hver =>
      split at h
      · cases h
      · left
        simp only [Except.ok.injEq] at h
        exact ⟨by simpa using hver, h.symm⟩
    next hver =>
      right
      simp only [Except.ok.injEq] at h
      exact ⟨by simpa using hver, h.symm⟩

/-- A successful `removeDomain` deletes the row, and additionally reverts the
workspace flags exactly when no verified row of that workspace survives. -/
theorem removeDomain_ok_shape {db : DB} {caller domainId : Nat} {db1 : DB}
    (h : removeDomain db caller domainId = .ok db1) :
    ∃ d, db.domains.find? (fun x => x.did == domainId) = some d ∧
      requireWorkspaceAdmin db caller d.workspaceId = true ∧
      ((∃ r, (db.domains.filter (fun x => !(x.did == domainId))).find? (fun x =>
          x.workspaceId == d.workspaceId && x.status == DomainStatus.verified) = some r ∧
        db1 = { db with domains := db.domains.filter (fun x => !(x.did == domainId)) }) ∨
       ((db.domains.filter (fun x => !(x.did == domainId))).find? (fun x =>
          x.workspaceId == d.workspaceId && x.status == DomainStatus.verified) = none ∧
        db1 = { db with
          domains := db.domains.filter (fun x => !(x.did == domainId)),
          workspaces := db.workspaces.map (fun w => if w.wid == d.workspaceId then
            setWorkspaceUnverified w else w) })) := by
  unfold removeDomain at h
  split at h
  · cases h
  next d hfind =>
    refine ⟨d, hfind, ?_, ?_⟩
    · split at h
      · cases h
      next hadm => exact by simpa using hadm
    · split at h
      · cases h
      split at h
      next r hrem =>
        left
        simp only [Except.ok.injEq] at h
        exact ⟨r, hrem, h.symm⟩
      next hrem =>
        split at h
        · cases h
        · right
          simp only [Except.ok.injEq] at h
          exact ⟨hrem, h.symm⟩

/-- A successful `create` appends exactly one invite link with `usedCount 0`
and the computed expiry, and implies every validation predicate passed. -/
theorem create_ok_shape {db : DB} {caller ws : Nat} {expiresInHours : Int}
    {scope : InviteScope} {maxUses : Option Int} {cands : List String} {now : Int}
    {db1 : DB} {lid : Nat} {code : String}
    (h : create db caller ws expiresInHours scope maxUses cands now = .ok (db1, lid, code)) :
    requireWorkspaceAdmin db caller ws = true ∧
    1 ≤ expiresInHours ∧ expiresInHours ≤ 720 ∧
    (∀ m, maxUses = some m → 1 ≤ m) ∧
    lid = db.nextId ∧
    db1 = { db with
      inviteLinks := db.inviteLinks ++
        [mkInviteLink db.nextId ws code caller now
          (now + expiresInHours * (60 * 60 * 1000)) maxUses scope],
      nextId := db.nextId + 1 } := by
  unfold create at h
  split at h
  · cases h
  next hadm =>
    split at h
    · cases h
    next hexp =>
      split at h
      · cases h
      next hmax =>
        split at h
        · cases h
        next hchan =>
          split at h
          · cases h
          next tok htok =>
            simp only [Except.ok.injEq, Prod.mk.injEq] at h
            refine ⟨by simpa using hadm, ?_, ?_, ?_, h.2.1.symm, ?_⟩
            · simp only [Bool.or_eq_true, decide_eq_true_eq, not_or] at hexp
              omega
            · simp only [Bool.or_eq_true, decide_eq_true_eq, not_or] at hexp
              omega
            · intro m hm
              rw [hm] at hmax
              simp only [decide_eq_true_eq] at hmax
              omega
            · rw [← h.1, ← h.2.2]

/-! ## Properties of the token generator -/

/-- Each masked index maps to a URL-safe, non-padding character. -/
theorem b64char_urlsafe : ∀ i < 64, isBase64UrlChar (toUrlSafeChar (b64char i)) = true ∧
    toUrlSafeChar (b64char i) ≠ '=' := by decide

/-- Any six-bit-masked index stays below the alphabet length. -/
theorem masked_lt (n : Nat) : (n &&& 0x3f) < 64 := by
  have := Nat.and_le_right (n := n) (m := 0x3f); omega

/-- The URL-safe substitution leaves the padding character alone. -/
theorem toUrlSafeChar_eq : toUrlSafeChar '=' = '=' := by decide

/-- Length of the padded base64 encoding: four characters per 3-byte chunk. -/
theorem base64EncodeBytes_length : ∀ bs : List Nat,
    (base64EncodeBytes bs).length = 4 * ((bs.length + 2) / 3)
  | [] => by simp [base64EncodeBytes]
  | [_] => by simp [base64EncodeBytes, b64chunk]
  | [_, _] => by simp [base64EncodeBytes, b64chunk]
  | _ :: _ :: _ :: rest => by
    have ih := base64EncodeBytes_length rest
    simp only [base64EncodeBytes, b64chunk, List.length_append, List.length_cons,
      List.length_nil, ih]
    omega

/-- Length of the unpadded base64url encoding: the ceiling of `4·n/3`. -/
theorem base64urlEncode_length : ∀ bs : List Nat,
    (base64urlEncode bs).length = (4 * bs.length + 2) / 3
  | [] => by simp [base64urlEncode, base64EncodeBytes]
  | [b0] => by
    have h1 := (b64char_urlsafe ((b0 >>> 2) &&& 0x3f) (masked_lt _)).2
    have h2 := (b64char_urlsafe ((b0 <<< 4) &&& 0x3f) (masked_lt _)).2
    simp [base64urlEncode, base64EncodeBytes, b64chunk, toUrlSafeChar_eq, h1, h2]
  | [b0, b1] => by
    have h1 := (b64char_urlsafe ((b0 >>> 2) &&& 0x3f) (masked_lt _)).2
    have h2 := (b64char_urlsafe (((b0 <<< 4) ||| (b1 >>> 4)) &&& 0x3f) (masked_lt _)).2
    have h3 := (b64char_urlsafe ((b1 <<< 2) &&& 0x3f) (masked_lt _)).2
    simp [base64urlEncode, base64EncodeBytes, b64chunk, toUrlSafeChar_eq, h1, h2, h3]
  | b0 :: b1 :: b2 :: rest => by
    have ih := base64urlEncode_length rest
    have h1 := (b64char_urlsafe ((b0 >>> 2) &&& 0x3f) (masked_lt _)).2
    have h2 := (b64char_urlsafe (((b0 <<< 4) ||| (b1 >>> 4)) &&& 0x3f) (masked_lt _)).2
    have h3 := (b64char_urlsafe (((b1 <<< 2) ||| (b2 >>> 6)) &&& 0x3f) (masked_lt _)).2
    have h4 := (b64char_urlsafe (b2 &&& 0x3f) (masked_lt _)).2
    have hlen : (base64urlEncode (b0 :: b1 :: b2 :: rest)).length =
        4 + (base64urlEncode rest).length := by
      simp only [base64urlEncode, base64EncodeBytes, List.map_append, List.filter_append,
        List.length_append, b64chunk, if_true, List.map_cons, List.map_nil,
        List.filter_cons, List.filter_nil]
      simp [h1, h2, h3, h4]
    rw [hlen, ih]
    simp only [List.length_cons]
    omega

/-- Every character of the base64url encoding is in `[A-Za-z0-9_-]`. -/
theorem base64urlEncode_chars : ∀ bs : List Nat, ∀ c ∈ base64urlEncode bs,
    isBase64UrlChar c = true := by
  have hchunk : ∀ b0 b1 b2 h1 h2, ∀ c ∈ ((b64chunk b0 b1 b2 h1 h2).map toUrlSafeChar).filter
      (fun c => c ≠ '='), isBase64UrlChar c = true := by
    intro b0 b1 b2 h1 h2 c hc
    simp only [List.mem_filter, List.mem_map, b64chunk] at hc
    obtain ⟨⟨x, hx, hcx⟩, hne⟩ := hc
    have hmem : ∀ y ∈ ([b64char ((b0 >>> 2) &&& 0x3f),
        b64char (((b0 <<< 4) ||| (b1 >>> 4)) &&& 0x3f),
        if h1 = true then b64char (((b1 <<< 2) ||| (b2 >>> 6)) &&& 0x3f) else '=',
        if h2 = true then b64char (b2 &&& 0x3f) else '='] : List Char),
        toUrlSafeChar y ≠ '=' → isBase64UrlChar (toUrlSafeChar y) = true := by
      intro y hy hyne
      have hand : ∀ n : Nat, (n &&& 0x3f) < 64 := by
        intro n; have := Nat.and_le_right (n := n) (m := 0x3f); omega
      simp only [List.mem_cons, List.not_mem_nil, or_false] at hy
      rcases hy with h | h | h | h
      · exact h ▸ (b64char_urlsafe _ (hand _)).1
      · exact h ▸ (b64char_urlsafe _ (hand _)).1
      · rcases h1 with _ | _
        · exfalso; apply hyne; simp [h, toUrlSafeChar]
        · exact h ▸ (by simpa using (b64char_urlsafe _ (hand _)).1)
      · rcases h2 with _ | _
        · exfalso; apply hyne; simp [h, toUrlSafeChar]
        · exact h ▸ (by simpa using (b64char_urlsafe _ (hand _)).1)
    subst hcx
    exact hmem x hx (by simpa using hne)
  intro bs
  induction bs using base64EncodeBytes.induct with
  | case1 => intro c hc; simp [base64urlEncode, base64EncodeBytes] at hc
  | case2 b0 =>
    intro c hc
    exact hchunk b0 0 0 false false c (by
      simpa [base64urlEncode, base64EncodeBytes] using hc)
  | case3 b0 b1 =>
    intro c hc
    exact hchunk b0 b1 0 true false c (by
      simpa [base64urlEncode, base64EncodeBytes] using hc)
  | case4 b0 b1 b2 rest ih =>
    intro c hc
    simp only [base64urlEncode, base64EncodeBytes, List.map_append, List.filter_append,
      List.mem_append] at hc
    rcases hc with hc | hc
    · exact hchunk b0 b1 b2 true true c hc
    · exact ih c hc

/-! ## The claims about the registries -/

/-- C9: `checkEmailDomain` returns no match (never an error) for every email
whose lowercasing does not contain exactly one `'@'`; for a well-formed email
it matches exactly when a `verified` domain row exists for (workspace, the
part after the `'@'`), and then reports that domain string. -/
theorem c9_checkEmailDomain (db : DB) (wsId : Nat) (email : String) :
    ((jsLower email).count '@' ≠ 1 →
      checkEmailDomain db wsId email = { matched := false, domain := none }) ∧
    ((jsLower email).count '@' = 1 →
      (((checkEmailDomain db wsId email).matched = true) ↔
        ∃ r ∈ db.domains, r.workspaceId = wsId ∧ r.domain = emailDomainOf email ∧
          r.status = DomainStatus.verified) ∧
      (checkEmailDomain db wsId email = { matched := false, domain := none } ∨
       checkEmailDomain db wsId email =
         { matched := true, domain := some (emailDomainOf email) })) := by
  have hsplit := jsSplit_length '@' (jsLower email)
  constructor
  · intro hcount
    have hne : (jsSplit '@' (jsLower email)).length ≠ 2 := by omega
    simp [checkEmailDomain, hne]
  · intro hcount
    have heq : (jsSplit '@' (jsLower email)).length = 2 := by omega
    cases hfind : db.domains.find? (fun d =>
        d.workspaceId == wsId && d.domain == emailDomainOf email &&
        d.status == DomainStatus.verified) with
    | none =>
      have hres : checkEmailDomain db wsId email = { matched := false, domain := none } := by
        simp [checkEmailDomain, heq, hfind]
      refine ⟨?_, Or.inl hres⟩
      rw [hres]
      constructor
      · intro h; simp at h
      · rintro ⟨r, hr, h1, h2, h3⟩
        have hnp := List.find?_eq_none.mp hfind r hr
        simp [h1, h2, h3] at hnp
    | some d =>
      have hp := List.find?_some hfind
      have hmem := List.mem_of_find?_eq_some hfind
      simp only [Bool.and_eq_true, beq_iff_eq] at hp
      have hres : checkEmailDomain db wsId email =
          { matched := true, domain := some (emailDomainOf email) } := by
        have hd2 : d.domain = emailDomainOf email := hp.1.2
        simp [checkEmailDomain, heq, hfind, hd2]
      refine ⟨?_, Or.inr hres⟩
      rw [hres]
      simp only [true_iff]
      exact ⟨d, hmem, hp.1.1, hp.1.2, hp.2⟩

/-- Witness for C9: with a verified `acme.com` row on workspace 10, the email
`Bob@Acme.com` matches and the reported domain is `acme.com`. -/
theorem c9_checkEmailDomain_witness :
    (jsLower "Bob@Acme.com").count '@' = 1 ∧
    ((((checkEmailDomain dbC9 10 "Bob@Acme.com").matched = true) ↔
      ∃ r ∈ dbC9.domains, r.workspaceId = 10 ∧ r.domain = emailDomainOf "Bob@Acme.com" ∧
        r.status = DomainStatus.verified) ∧
     (checkEmailDomain dbC9 10 "Bob@Acme.com" = { matched := false, domain := none } ∨
      checkEmailDomain dbC9 10 "Bob@Acme.com" =
        { matched := true, domain := some (emailDomainOf "Bob@Acme.com") })) :=
  ⟨by decide, (c9_checkEmailDomain dbC9 10 "Bob@Acme.com").2 (by decide)⟩

/-- C10: `validateForRedemption` reports the first dead condition in the
fixed source order (not found, expired, revoked, exhausted, workspace
missing); in particular an invite that is both expired and revoked yields
the expired error, while the `status` field computed by `list` gives
`revoked` precedence over `expired` for the same invite. -/
theorem c10_validateForRedemption_precedence (db : DB) (code : String) (now : Int) :
    (db.inviteLinks.find? (fun l => l.code == code) = none →
      validateForRedemption db code now = .invalid "Invite link not found.") ∧
    (∀ l, db.inviteLinks.find? (fun x => x.code == code) = some l →
      l.expiresAt < now →
      validateForRedemption db code now = .invalid "Invite link has expired.") ∧
    (∀ l, db.inviteLinks.find? (fun x => x.code == code) = some l →
      ¬ l.expiresAt < now → jsTruthyNum l.revokedAt = true →
      validateForRedemption db code now = .invalid "Invite link has been revoked.") ∧
    (∀ l, db.inviteLinks.find? (fun x => x.code == code) = some l →
      ¬ l.expiresAt < now → jsTruthyNum l.revokedAt = false → isAtMaxUses l = true →
      validateForRedemption db code now =
        .invalid "Invite link has reached maximum uses.") ∧
    (∀ l, db.inviteLinks.find? (fun x => x.code == code) = some l →
      ¬ l.expiresAt < now → jsTruthyNum l.revokedAt = false → isAtMaxUses l = false →
      db.workspaces.find? (fun w => w.wid == l.workspaceId) = none →
      validateForRedemption db code now = .invalid "Workspace not found.") ∧
    (∀ l : InviteLink, jsTruthyNum l.revokedAt = true →
      inviteStatus l now = "revoked") ∧
    (∀ caller rows (l : InviteLink), l ∈ db.inviteLinks →
      list db caller l.workspaceId now = .ok rows →
      ∃ e ∈ rows, e.id = l.lid ∧ e.status = inviteStatus l now) := by
  refine ⟨?_, ?_, ?_, ?_, ?_, ?_, ?_⟩
  · intro hfind; simp [validateForRedemption, hfind]
  · intro l hfind hexp; simp [validateForRedemption, hfind, hexp]
  · intro l hfind hexp hrev; simp [validateForRedemption, hfind, hexp, hrev]
  · intro l hfind hexp hrev hmax
    simp [validateForRedemption, hfind, hexp, hrev, hmax]
  · intro l hfind hexp hrev hmax hws
    simp [validateForRedemption, hfind, hexp, hrev, hmax, hws]
  · intro l hrev; simp [inviteStatus, hrev]
  · intro caller rows l hl hok
    unfold list at hok
    split at hok
    · cases hok
    · simp only [Except.ok.injEq] at hok
      subst hok
      refine ⟨_, List.mem_map_of_mem _ (List.mem_filter.mpr ⟨hl, by simp⟩), rfl, rfl⟩

/-- Witness for C10 at a concrete invite that is both expired and revoked at
time 100: the redemption pre-check says expired, the list status says revoked. -/
theorem c10_validateForRedemption_witness :
    validateForRedemption dbC10 "c10" 100 = .invalid "Invite link has expired." ∧
    inviteStatus linkC10 100 = "revoked" ∧
    (∃ rows, list dbC10 1 linkC10.workspaceId 100 = .ok rows ∧
      ∃ e ∈ rows, e.id = linkC10.lid ∧ e.status = inviteStatus linkC10 100) := by
  exact ⟨(c10_validateForRedemption_precedence dbC10 "c10" 100).2.1 linkC10
      (by decide) (by decide),
    (c10_validateForRedemption_precedence dbC10 "c10" 100).2.2.2.2.2.1 linkC10 (by decide),
    [entryC10], by rfl,
    (c10_validateForRedemption_precedence dbC10 "c10" 100).2.2.2.2.2.2 1 [entryC10] linkC10
      (by decide) (by rfl)⟩

/-- C4 counterexample: `getByCode` also returns null for an invite that is
found, unexpired, unrevoked and unexhausted, when the owning workspace row is
missing — a fifth null condition the claim's "exactly when" list omits. -/
theorem c4_getByCode_counterexample :
    getByCode dbC4 "c4" 0 = none ∧
    dbC4.inviteLinks.find? (fun l => l.code == "c4") = some linkC4 ∧
    ¬ linkC4.expiresAt < 0 ∧ linkC4.revokedAt = none ∧ linkC4.maxUses = none := by
  decide

/-- C4 amended: under the write-time invariants (revocation timestamps are
positive, `maxUses` is at least 1 when set), `getByCode` returns null exactly
when the invite is not found, expired, revoked, exhausted, or its workspace
row is missing; otherwise it returns the link id, workspace display name and
scope.  As a total function of the store it never throws or mutates. -/
theorem c4_getByCode_amended (db : DB) (code : String) (now : Int)
    (hrev : ∀ l ∈ db.inviteLinks, ∀ t : Int, l.revokedAt = some t → 0 < t)
    (hmax : ∀ l ∈ db.inviteLinks, ∀ m : Int, l.maxUses = some m → 1 ≤ m) :
    (getByCode db code now = none ↔
      ∀ l, db.inviteLinks.find? (fun x => x.code == code) = some l →
        (l.expiresAt < now ∨ l.revokedAt ≠ none ∨
         (∃ m, l.maxUses = some m ∧ m ≤ l.usedCount) ∨
         db.workspaces.find? (fun w => w.wid == l.workspaceId) = none)) ∧
    (∀ r, getByCode db code now = some r →
      ∃ l w, db.inviteLinks.find? (fun x => x.code == code) = some l ∧
        db.workspaces.find? (fun x => x.wid == l.workspaceId) = some w ∧
        r.id = l.lid ∧ r.workspaceId = l.workspaceId ∧ r.workspaceName = w.name ∧
        r.expiresAt = l.expiresAt ∧ r.scope = l.scope) := by
  cases hfind : db.inviteLinks.find? (fun x => x.code == code) with
  | none =>
    have hnone : getByCode db code now = none := by simp [getByCode, hfind]
    refine ⟨⟨fun _ l hl => ?_, fun _ => hnone⟩, fun r hr => ?_⟩
    · cases hl
    · rw [hnone] at hr; cases hr
  | some l =>
    have hlmem := List.mem_of_find?_eq_some hfind
    have hrevl : jsTruthyNum l.revokedAt = true ↔ l.revokedAt ≠ none := by
      cases hopt : l.revokedAt with
      | none => simp [jsTruthyNum]
      | some t =>
        have := hrev l hlmem t hopt
        simp only [jsTruthyNum, ne_eq, bne_iff_ne]
        constructor
        · intro _ hc; cases hc
        · intro _; omega
    have hmaxl : isAtMaxUses l = true ↔
        ∃ m, l.maxUses = some m ∧ m ≤ l.usedCount := by
      cases hopt : l.maxUses with
      | none => simp [isAtMaxUses, hopt]
      | some m =>
        have := hmax l hlmem m hopt
        simp only [isAtMaxUses, hopt, Bool.and_eq_true, bne_iff_ne, ne_eq,
          decide_eq_true_eq, Option.some.injEq]
        constructor
        · rintro ⟨_, hle⟩; exact ⟨m, rfl, hle⟩
        · rintro ⟨m2, hm2, hle⟩; subst hm2; exact ⟨by omega, hle⟩
    by_cases hexp : l.expiresAt < now
    · have hnone : getByCode db code now = none := by simp [getByCode, hfind, hexp]
      refine ⟨⟨fun _ l2 hl2 => ?_, fun _ => hnone⟩, fun r hr => ?_⟩
      · injection hl2 with h2; subst h2; exact Or.inl hexp
      · rw [hnone] at hr; cases hr
    · by_cases hrevc : jsTruthyNum l.revokedAt = true
      · have hnone : getByCode db code now = none := by
          simp [getByCode, hfind, hexp, hrevc]
        refine ⟨⟨fun _ l2 hl2 => ?_, fun _ => hnone⟩, fun r hr => ?_⟩
        · injection hl2 with h2; subst h2
          exact Or.inr (Or.inl (hrevl.mp hrevc))
        · rw [hnone] at hr; cases hr
      · rw [Bool.not_eq_true] at hrevc
        by_cases hmaxc : isAtMaxUses l = true
        · have hnone : getByCode db code now = none := by
            simp [getByCode, hfind, hexp, hrevc, hmaxc]
          refine ⟨⟨fun _ l2 hl2 => ?_, fun _ => hnone⟩, fun r hr => ?_⟩
          · injection hl2 with h2; subst h2
            exact Or.inr (Or.inr (Or.inl (hmaxl.mp hmaxc)))
          · rw [hnone] at hr; cases hr
        · rw [Bool.not_eq_true] at hmaxc
          cases hws : db.workspaces.find? (fun w => w.wid == l.workspaceId) with
          | none =>
            have hnone : getByCode db code now = none := by
              simp [getByCode, hfind, hexp, hrevc, hmaxc, hws]
            refine ⟨⟨fun _ l2 hl2 => ?_, fun _ => hnone⟩, fun r hr => ?_⟩
            · injection hl2 with h2; subst h2
              exact Or.inr (Or.inr (Or.inr hws))
            · rw [hnone] at hr; cases hr
          | some w =>
            have hsome : getByCode db code now =
                some { id := l.lid, workspaceId := l.workspaceId,
                       workspaceName := w.name, expiresAt := l.expiresAt,
                       scope := l.scope } := by
              simp [getByCode, hfind, hexp, hrevc, hmaxc, hws]
            constructor
            · constructor
              · intro hn; rw [hsome] at hn; cases hn
              · intro hall
                rcases hall l rfl with h | h | h | h
                · exact absurd h hexp
                · exact absurd (hrevl.mpr h) (by simp [hrevc])
                · exact absurd (hmaxl.mpr h) (by simp [hmaxc])
                · rw [hws] at h; cases h
            · intro r hr
              rw [hsome] at hr
              injection hr with h2
              subst h2
              exact ⟨l, w, rfl, hws, rfl, rfl, rfl, rfl, rfl⟩

/-- Witness for C4 amended at a live invite whose workspace exists. -/
theorem c4_getByCode_amended_witness :
    ((getByCode dbC4w "c4" 0 = none ↔
      ∀ l, dbC4w.inviteLinks.find? (fun x => x.code == "c4") = some l →
        (l.expiresAt < 0 ∨ l.revokedAt ≠ none ∨
         (∃ m, l.maxUses = some m ∧ m ≤ l.usedCount) ∨
         dbC4w.workspaces.find? (fun w => w.wid == l.workspaceId) = none)) ∧
     (∀ r, getByCode dbC4w "c4" 0 = some r →
      ∃ l w, dbC4w.inviteLinks.find? (fun x => x.code == "c4") = some l ∧
        dbC4w.workspaces.find? (fun x => x.wid == l.workspaceId) = some w ∧
        r.id = l.lid ∧ r.workspaceId = l.workspaceId ∧ r.workspaceName = w.name ∧
        r.expiresAt = l.expiresAt ∧ r.scope = l.scope)) :=
  c4_getByCode_amended dbC4w "c4" 0
    (by
      intro l hl t ht
      have hl2 : l = linkC4w := by simpa [dbC4w, dbBase] using hl
      subst hl2
      simp [linkC4w, linkC4] at ht)
    (by
      intro l hl m hm
      have hl2 : l = linkC4w := by simpa [dbC4w, dbBase] using hl
      subst hl2
      simp [linkC4w, linkC4] at hm)

/-- C8: `revoke` rejects with the already-revoked error when `revokedAt` is
already set (to any positive timestamp), leaving the store untouched (a
thrown rejection rolls back); when the invite exists and is unrevoked it sets
`revokedAt := now` and changes nothing else — not the other fields of the
invite, not the other invites, not the other tables. -/
theorem c8_revoke_semantics (db : DB) (callerId inviteLinkId : Nat) (now : Int) :
    (∀ l t, db.inviteLinks.find? (fun x => x.lid == inviteLinkId) = some l →
      requireWorkspaceAdmin db callerId l.workspaceId = true →
      l.revokedAt = some t → 0 < t →
      revoke db callerId inviteLinkId now = .error .alreadyRevoked) ∧
    (∀ l, db.inviteLinks.find? (fun x => x.lid == inviteLinkId) = some l →
      requireWorkspaceAdmin db callerId l.workspaceId = true →
      l.revokedAt = none →
      ∃ db1, revoke db callerId inviteLinkId now = .ok db1 ∧
        db1.workspaces = db.workspaces ∧ db1.domains = db.domains ∧
        db1.members = db.members ∧ db1.channels = db.channels ∧
        db1.users = db.users ∧ db1.nextId = db.nextId ∧
        db1.inviteLinks.find? (fun x => x.lid == inviteLinkId) =
          some (setRevoked now l) ∧
        (∀ x ∈ db.inviteLinks, (x.lid == inviteLinkId) = false →
          x ∈ db1.inviteLinks)) := by
  constructor
  · intro l t hfind hadm hrevt hpos
    have htr : jsTruthyNum l.revokedAt = true := by
      simp only [hrevt, jsTruthyNum, bne_iff_ne, ne_eq]
      omega
    simp [revoke, hfind, hadm, htr]
  · intro l hfind hadm hrev
    have hfalse : jsTruthyNum l.revokedAt = false := by simp [hrev, jsTruthyNum]
    refine ⟨{ db with inviteLinks := db.inviteLinks.map (fun x =>
        if x.lid == inviteLinkId then setRevoked now x else x) },
      ?_, rfl, rfl, rfl, rfl, rfl, rfl, ?_, ?_⟩
    · simp [revoke, hfind, hadm, hfalse]
    · have hp := find?_map_patch (fun x : InviteLink => x.lid == inviteLinkId)
        (setRevoked now) (fun a => rfl) db.inviteLinks
      simpa [hfind] using hp
    · intro x hx hne
      exact mem_map_patch_self _ _ hx hne

/-- Witness for C8: a second revoke of the link revoked at time 7 errors; the
fresh link is revoked in place at time 9, other data untouched. -/
theorem c8_revoke_semantics_witness :
    revoke dbC8r 1 5 9 = .error .alreadyRevoked ∧
    (∃ db1, revoke dbC8 1 5 9 = .ok db1 ∧
      db1.workspaces = dbC8.workspaces ∧ db1.domains = dbC8.domains ∧
      db1.members = dbC8.members ∧ db1.channels = dbC8.channels ∧
      db1.users = dbC8.users ∧ db1.nextId = dbC8.nextId ∧
      db1.inviteLinks.find? (fun x => x.lid == 5) = some (setRevoked 9 linkC8) ∧
      (∀ x ∈ dbC8.inviteLinks, (x.lid == 5) = false → x ∈ db1.inviteLinks)) :=
  ⟨(c8_revoke_semantics dbC8r 1 5 9).1 linkC8r 7 (by rfl) (by decide) (by rfl)
      (by decide),
   (c8_revoke_semantics dbC8 1 5 9).2 linkC8 (by rfl) (by decide) (by rfl)⟩

/-- C7: `create` rejects — with no write, since a thrown rejection rolls the
transaction back — whenever `expiresInHours` is outside `[1, 720]`, or
`maxUses` is present and below 1, or the scope names a channel that is absent
or belongs to another workspace; on success it appends exactly one link with
`usedCount = 0` and `expiresAt = now + expiresInHours·3600000`, returning its
id and code. -/
theorem c7_create_validation (db : DB) (callerId wsId : Nat) (expiresInHours : Int)
    (scope : InviteScope) (maxUses : Option Int) (cands : List String) (now : Int) :
    (requireWorkspaceAdmin db callerId wsId = true →
      (expiresInHours < 1 ∨ 720 < expiresInHours) →
      create db callerId wsId expiresInHours scope maxUses cands now =
        .error .expiryOutOfRange) ∧
    (∀ m, requireWorkspaceAdmin db callerId wsId = true →
      1 ≤ expiresInHours → expiresInHours ≤ 720 →
      maxUses = some m → m < 1 →
      create db callerId wsId expiresInHours scope maxUses cands now =
        .error .maxUsesTooSmall) ∧
    (∀ channelId, requireWorkspaceAdmin db callerId wsId = true →
      1 ≤ expiresInHours → expiresInHours ≤ 720 →
      (∀ m, maxUses = some m → 1 ≤ m) →
      scope = .channel channelId →
      (∀ ch, db.channels.find? (fun c => c.cid == channelId) = some ch →
        ¬ ch.workspaceId = wsId) →
      create db callerId wsId expiresInHours scope maxUses cands now =
        .error .channelNotInWorkspace) ∧
    (∀ db1 lid code,
      create db callerId wsId expiresInHours scope maxUses cands now =
        .ok (db1, lid, code) →
      lid = db.nextId ∧
      db1.inviteLinks = db.inviteLinks ++
        [mkInviteLink db.nextId wsId code callerId now
          (now + expiresInHours * (60 * 60 * 1000)) maxUses scope] ∧
      (mkInviteLink db.nextId wsId code callerId now
          (now + expiresInHours * (60 * 60 * 1000)) maxUses scope).usedCount = 0 ∧
      (mkInviteLink db.nextId wsId code callerId now
          (now + expiresInHours * (60 * 60 * 1000)) maxUses scope).expiresAt =
        now + expiresInHours * (60 * 60 * 1000) ∧
      db1.workspaces = db.workspaces ∧ db1.domains = db.domains ∧
      db1.members = db.members ∧ db1.channels = db.channels) := by
  refine ⟨?_, ?_, ?_, ?_⟩
  · intro hadm hout
    have hcond : (decide (expiresInHours < 1) || decide (720 < expiresInHours)) = true := by
      rcases hout with h | h <;> simp [h]
    simp [create, hadm, hcond]
  · intro m hadm hlo hhi hm hlt
    have hcond : (decide (expiresInHours < 1) || decide (720 < expiresInHours)) = false := by
      simp; omega
    subst hm
    simp [create, hadm, hcond, hlt]
  · intro channelId hadm hlo hhi hmok hscope hch
    subst hscope
    have hcond : (decide (expiresInHours < 1) || decide (720 < expiresInHours)) = false := by
      simp; omega
    have hchan : (match db.channels.find? (fun c => c.cid == channelId) with
        | none => false
        | some channel => channel.workspaceId == wsId) = false := by
      cases hf : db.channels.find? (fun c => c.cid == channelId) with
      | none => rfl
      | some ch => simpa using hch ch hf
    cases hmu : maxUses with
    | none => simp [create, hadm, hcond, hchan]
    | some m =>
      have h1 := hmok m hmu
      have hmc : decide (m < 1) = false := by
        simp only [decide_eq_false_iff_not]; omega
      simp [create, hadm, hcond, hchan, hmc]
  · intro db1 lid code h
    obtain ⟨hadm, hlo, hhi, hmax, hlid, hdb⟩ := create_ok_shape h
    subst hdb
    exact ⟨hlid, rfl, rfl, rfl, rfl, rfl, rfl, rfl⟩

/-- Witness for C7: an out-of-range expiry errors; a valid call appends the
expected link with `usedCount 0` and the computed expiry. -/
theorem c7_create_validation_witness :
    create dbBase 1 10 0 .workspace none ["K1"] 100 = .error .expiryOutOfRange ∧
    (2 = dbBase.nextId ∧
     dbC7res.inviteLinks = dbBase.inviteLinks ++
       [mkInviteLink dbBase.nextId 10 "K1" 1 100 (100 + 24 * (60 * 60 * 1000)) (some 5)
         InviteScope.workspace] ∧
     (mkInviteLink dbBase.nextId 10 "K1" 1 100 (100 + 24 * (60 * 60 * 1000)) (some 5)
         InviteScope.workspace).usedCount = 0 ∧
     (mkInviteLink dbBase.nextId 10 "K1" 1 100 (100 + 24 * (60 * 60 * 1000)) (some 5)
         InviteScope.workspace).expiresAt = 100 + 24 * (60 * 60 * 1000) ∧
     dbC7res.workspaces = dbBase.workspaces ∧ dbC7res.domains = dbBase.domains ∧
     dbC7res.members = dbBase.members ∧ dbC7res.channels = dbBase.channels) :=
  ⟨(c7_create_validation dbBase 1 10 0 .workspace none ["K1"] 100).1 (by decide)
      (Or.inl (by decide)),
   (c7_create_validation dbBase 1 10 24 .workspace (some 5) ["K1"] 100).2.2.2
      dbC7res 2 "K1" (by rfl)⟩

/-- C5: `addDomain` normalizes `"WWW.Acme.COM "` to `"acme.com"` before the
global-uniqueness check; after one workspace claims it, a second `addDomain`
of `"acme.com"` from a different workspace fails as claimed-by-another, and
from the owning workspace as already-added. -/
theorem c5_addDomain_normalization (db : DB) (caller1 caller2 ws1 ws2 : Nat)
    (cands cands2 : List String) (now now2 : Int) (db1 : DB) (did : Nat)
    (hws : ws1 ≠ ws2)
    (hadmin2 : requireWorkspaceAdmin db caller2 ws2 = true)
    (h1 : addDomain db caller1 ws1 "WWW.Acme.COM " cands now = .ok (db1, did)) :
    normalizeDomain "WWW.Acme.COM " = "acme.com" ∧
    (∃ row ∈ db1.domains, row.did = did ∧ row.domain = "acme.com" ∧
      row.workspaceId = ws1 ∧ row.status = DomainStatus.pending) ∧
    addDomain db1 caller2 ws2 "acme.com" cands2 now2 =
      .error .alreadyClaimedByAnotherWorkspace ∧
    addDomain db1 caller1 ws1 "acme.com" cands2 now2 =
      .error .alreadyAddedToThisWorkspace := by
  obtain ⟨hadm1, hdid, hfree, tok, hdb1⟩ := addDomain_ok_shape h1
  have hnorm : normalizeDomain "WWW.Acme.COM " = "acme.com" := by decide
  have hnorm2 : normalizeDomain "acme.com" = "acme.com" := by decide
  have hvalid : isValidDomain "acme.com" = true := by decide
  simp only [hnorm] at hfree hdb1
  subst hdb1
  subst hdid
  have hfind2 : (db.domains ++
      [mkPendingDomain db.nextId ws1 "acme.com" tok now caller1]).find?
      (fun d => d.domain == "acme.com") =
      some (mkPendingDomain db.nextId ws1 "acme.com" tok now caller1) := by
    rw [List.find?_append, hfree]
    simp [mkPendingDomain]
  simp only [requireWorkspaceAdmin] at hadmin2 hadm1
  refine ⟨hnorm, ⟨mkPendingDomain db.nextId ws1 "acme.com" tok now caller1,
    List.mem_append_right _ (List.mem_singleton_self _), rfl, rfl, rfl, rfl⟩, ?_, ?_⟩
  · simp [addDomain, requireWorkspaceAdmin, hadmin2, hnorm2, hvalid, hfree,
      mkPendingDomain, hws]
  · simp [addDomain, requireWorkspaceAdmin, hadm1, hnorm2, hvalid, hfree,
      mkPendingDomain]

/-- Witness for C5 at the two-workspace store: workspace 10 claims
`WWW.Acme.COM ` (normalized), then workspace 20's attempt and workspace 10's
repeat both fail with the distinct errors. -/
theorem c5_addDomain_normalization_witness :
    normalizeDomain "WWW.Acme.COM " = "acme.com" ∧
    (∃ row ∈ dbAdded.domains, row.did = 2 ∧ row.domain = "acme.com" ∧
      row.workspaceId = 10 ∧ row.status = DomainStatus.pending) ∧
    addDomain dbAdded 2 20 "acme.com" ["T9"] 4 =
      .error .alreadyClaimedByAnotherWorkspace ∧
    addDomain dbAdded 1 10 "acme.com" ["T9"] 4 =
      .error .alreadyAddedToThisWorkspace :=
  c5_addDomain_normalization dbBase 1 2 10 20 ["T1"] ["T9"] 3 4 dbAdded 2
    (by decide) (by decide) (by rfl)

/-- C1: after `updateStatus(domainId, verified, t)` succeeds, the row reads
back as `verified` with `verifiedAt = t` and the owning workspace has
`domainVerified = true` and `joinCodeEnabled = false`; a row freshly inserted
by `addDomain` reads back via `listDomains` with status `pending`. -/
theorem c1_updateStatus_verified_roundtrip :
    (∀ (db : DB) (domainId : Nat) (t : Int) (d : DomainRow) (db2 : DB),
      db.domains.find? (fun x => x.did == domainId) = some d →
      updateStatus db domainId DomainStatus.verified (some t) = .ok db2 →
      db2.domains.find? (fun x => x.did == domainId) =
        some (setDomainStatus DomainStatus.verified (some t) d) ∧
      (setDomainStatus DomainStatus.verified (some t) d).status =
        DomainStatus.verified ∧
      (setDomainStatus DomainStatus.verified (some t) d).verifiedAt = some t ∧
      ∀ w ∈ db2.workspaces, w.wid = d.workspaceId →
        w.domainVerified = some true ∧ w.joinCodeEnabled = some false) ∧
    (∀ (db : DB) (caller ws : Nat) (raw : String) (cands : List String) (now : Int)
      (db1 : DB) (did : Nat),
      addDomain db caller ws raw cands now = .ok (db1, did) →
      ∃ rows, listDomains db1 caller ws = .ok rows ∧
        ∃ e ∈ rows, e.id = did ∧ e.status = DomainStatus.pending) := by
  constructor
  · intro db domainId t d db2 hfind hok
    obtain ⟨d2, hfind2, hcase⟩ := updateStatus_ok_shape hok
    rw [hfind] at hfind2
    injection hfind2 with hd2
    subst hd2
    rcases hcase with ⟨_, hdb2⟩ | ⟨hne, _⟩
    · subst hdb2
      refine ⟨?_, rfl, rfl, ?_⟩
      · have hp := find?_map_patch (fun x : DomainRow => x.did == domainId)
          (setDomainStatus DomainStatus.verified (some t)) (fun a => rfl) db.domains
        simpa [hfind] using hp
      · intro w hw hwid
        rcases List.mem_map.mp hw with ⟨w0, hw0, hweq⟩
        by_cases hcond : (w0.wid == d.workspaceId) = true
        · rw [if_pos hcond] at hweq
          subst hweq
          exact ⟨rfl, rfl⟩
        · rw [if_neg hcond] at hweq
          subst hweq
          exact absurd (by simpa using hwid) hcond
    · exact absurd rfl hne
  · intro db caller ws raw cands now db1 did h
    obtain ⟨hadm, hdid, hfree, tok, hdb1⟩ := addDomain_ok_shape h
    subst hdb1
    subst hdid
    have hadm1 : requireWorkspaceAdmin { db with
        domains := db.domains ++
          [mkPendingDomain db.nextId ws (normalizeDomain raw) tok now caller],
        nextId := db.nextId + 1 } caller ws = true := hadm
    have hlist : listDomains { db with
        domains := db.domains ++
          [mkPendingDomain db.nextId ws (normalizeDomain raw) tok now caller],
        nextId := db.nextId + 1 } caller ws =
        .ok (((db.domains ++
          [mkPendingDomain db.nextId ws (normalizeDomain raw) tok now caller]).filter
            (fun d => d.workspaceId == ws)).map domainListEntryOf) := by
      simp [listDomains, hadm1]
    refine ⟨_, hlist,
      domainListEntryOf (mkPendingDomain db.nextId ws (normalizeDomain raw) tok now caller),
      List.mem_map_of_mem _ (List.mem_filter.mpr
        ⟨List.mem_append_right _ (List.mem_singleton_self _), by simp [mkPendingDomain]⟩),
      rfl, rfl⟩

/-- Witness for C1: verify the pending `acme.com` row of workspace 10 at time
5, then read the verified row and flags back; and the freshly added row shows
`pending` through `listDomains`. -/
theorem c1_updateStatus_verified_roundtrip_witness :
    (dbC1v.domains.find? (fun x => x.did == 1) =
      some (setDomainStatus DomainStatus.verified (some 5) domPendingA) ∧
     (setDomainStatus DomainStatus.verified (some 5) domPendingA).status =
       DomainStatus.verified ∧
     (setDomainStatus DomainStatus.verified (some 5) domPendingA).verifiedAt = some 5 ∧
     ∀ w ∈ dbC1v.workspaces, w.wid = domPendingA.workspaceId →
       w.domainVerified = some true ∧ w.joinCodeEnabled = some false) ∧
    (∃ rows, listDomains dbAdded 1 10 = .ok rows ∧
      ∃ e ∈ rows, e.id = 2 ∧ e.status = DomainStatus.pending) :=
  ⟨(c1_updateStatus_verified_roundtrip).1 dbC1 1 5 domPendingA dbC1v
      (by rfl) (by rfl),
   (c1_updateStatus_verified_roundtrip).2 dbBase 1 10 "WWW.Acme.COM " ["T1"] 3
      dbAdded 2 (by rfl)⟩

/-- C2 counterexample: `updateStatus` to `failed` on the sole verified domain
of a workspace leaves `domainVerified = true` with no verified row, so the
invariant is not preserved by every Domain Registry operation. -/
theorem c2_domainVerified_counterexample :
    DomainsInv dbC2 ∧
    updateStatus dbC2 1 DomainStatus.failed none = .ok dbC2bad ∧
    ¬ DomainsInv dbC2bad :=
  ⟨by decide, by rfl, by decide⟩

/-- C2 amended: the invariant (`domainVerified = true` implies a verified row)
is preserved by `addDomain`, by `removeDomain` (on stores with distinct row
ids), and by `updateStatus` to `verified`; and when `removeDomain` leaves no
verified row for the owning workspace, that workspace's flags revert to
`domainVerified = false, joinCodeEnabled = true`.  It is not preserved by
`updateStatus` to `pending`/`failed` (see the counterexample). -/
theorem c2_domainVerified_invariant_amended :
    (∀ (db : DB) (caller ws : Nat) (raw : String) (cands : List String) (now : Int)
      (db1 : DB) (did : Nat),
      DomainsInv db →
      addDomain db caller ws raw cands now = .ok (db1, did) →
      DomainsInv db1) ∧
    (∀ (db : DB) (caller domainId : Nat) (db1 : DB),
      (db.domains.map DomainRow.did).Nodup →
      DomainsInv db →
      removeDomain db caller domainId = .ok db1 →
      DomainsInv db1) ∧
    (∀ (db : DB) (domainId : Nat) (t : Option Int) (db1 : DB),
      DomainsInv db →
      updateStatus db domainId DomainStatus.verified t = .ok db1 →
      DomainsInv db1) ∧
    (∀ (db : DB) (caller domainId : Nat) (d : DomainRow) (db1 : DB),
      db.domains.find? (fun x => x.did == domainId) = some d →
      removeDomain db caller domainId = .ok db1 →
      db1.domains.find? (fun x =>
        x.workspaceId == d.workspaceId && x.status == DomainStatus.verified) = none →
      ∀ w ∈ db1.workspaces, w.wid = d.workspaceId →
        w.domainVerified = some false ∧ w.joinCodeEnabled = some true) := by
  refine ⟨?_, ?_, ?_, ?_⟩
  · intro db caller ws raw cands now db1 did hinv h
    obtain ⟨-, -, -, tok, hdb1⟩ := addDomain_ok_shape h
    subst hdb1
    intro w hw hflag
    obtain ⟨dd, hdd, h1, h2⟩ := hinv w hw hflag
    exact ⟨dd, List.mem_append_left _ hdd, h1, h2⟩
  · intro db caller domainId db1 hnodup hinv h
    obtain ⟨d, hfind, hadm, hcase⟩ := removeDomain_ok_shape h
    have hdmem := List.mem_of_find?_eq_some hfind
    have hdid := List.find?_some hfind
    have hddid : d.did = domainId := by simpa using hdid
    have hsurv : ∀ r ∈ db.domains, r.workspaceId ≠ d.workspaceId →
        r ∈ db.domains.filter (fun x => !(x.did == domainId)) := by
      intro r hr hne
      refine List.mem_filter.mpr ⟨hr, ?_⟩
      simp only [Bool.not_eq_true', beq_eq_false_iff_ne, ne_eq]
      intro hrd
      have hrdeq : r = d :=
        List.inj_on_of_nodup_map hnodup hr hdmem (by rw [hrd, hddid])
      exact hne (by rw [hrdeq])
    rcases hcase with ⟨rv, hrv, hdb1⟩ | ⟨hnone, hdb1⟩
    · subst hdb1
      intro w hw hflag
      by_cases hwd : w.wid = d.workspaceId
      · have hrvmem := List.mem_of_find?_eq_some hrv
        have hrvp := List.find?_some hrv
        simp only [Bool.and_eq_true, beq_iff_eq] at hrvp
        exact ⟨rv, hrvmem, by rw [hrvp.1, hwd], hrvp.2⟩
      · obtain ⟨r, hr, hrw, hrs⟩ := hinv w hw hflag
        have hne2 : r.workspaceId ≠ d.workspaceId := by rw [hrw]; exact hwd
        exact ⟨r, hsurv r hr hne2, hrw, hrs⟩
    · subst hdb1
      intro w hw hflag
      rcases List.mem_map.mp hw with ⟨w0, hw0, hweq⟩
      by_cases hcond : (w0.wid == d.workspaceId) = true
      · rw [if_pos hcond] at hweq
        subst hweq
        simp [setWorkspaceUnverified] at hflag
      · rw [if_neg hcond] at hweq
        subst hweq
        obtain ⟨r, hr, hrw, hrs⟩ := hinv w0 hw0 hflag
        have hne2 : r.workspaceId ≠ d.workspaceId := by
          rw [hrw]; exact fun hx => hcond (by simpa using hx)
        exact ⟨r, hsurv r hr hne2, hrw, hrs⟩
  · intro db domainId t db1 hinv h
    obtain ⟨d, hfind, hcase⟩ := updateStatus_ok_shape h
    have hdmem := List.mem_of_find?_eq_some hfind
    have hdid := List.find?_some hfind
    rcases hcase with ⟨-, hdb1⟩ | ⟨hne, -⟩
    · subst hdb1
      intro w hw hflag
      rcases List.mem_map.mp hw with ⟨w0, hw0, hweq⟩
      by_cases hcond : (w0.wid == d.workspaceId) = true
      · rw [if_pos hcond] at hweq
        subst hweq
        refine ⟨setDomainStatus DomainStatus.verified t d,
          mem_map_patch_image _ _ hdmem hdid, ?_, rfl⟩
        show d.workspaceId = (setWorkspaceVerified w0).wid
        simpa using (beq_iff_eq.mp hcond).symm
      · rw [if_neg hcond] at hweq
        subst hweq
        obtain ⟨r, hr, hrw, hrs⟩ := hinv w0 hw0 hflag
        by_cases hrd : (r.did == domainId) = true
        · exact ⟨setDomainStatus DomainStatus.verified t r,
            mem_map_patch_image _ _ hr hrd, hrw, rfl⟩
        · exact ⟨r, mem_map_patch_self _ _ hr (by simpa using hrd), hrw, hrs⟩
    · exact absurd rfl hne
  · intro db caller domainId d db1 hfind h hnov w hw hwid
    obtain ⟨d2, hfind2, hadm, hcase⟩ := removeDomain_ok_shape h
    rw [hfind] at hfind2
    injection hfind2 with hd2
    subst hd2
    rcases hcase with ⟨rv, hrv, hdb1⟩ | ⟨hnone, hdb1⟩
    · subst hdb1
      rw [hrv] at hnov
      cases hnov
    · subst hdb1
      rcases List.mem_map.mp hw with ⟨w0, hw0, hweq⟩
      by_cases hcond : (w0.wid == d.workspaceId) = true
      · rw [if_pos hcond] at hweq
        subst hweq
        exact ⟨rfl, rfl⟩
      · rw [if_neg hcond] at hweq
        subst hweq
        exact absurd (by simpa using hwid) hcond

/-- Witness for C2 amended at the concrete verified store: adding `beta.com`
keeps the invariant; removing the sole verified row keeps the invariant and
reverts the flags of workspace 10. -/
theorem c2_domainVerified_invariant_amended_witness :
    DomainsInv dbC2add ∧ DomainsInv dbC2rm ∧
    (∀ w ∈ dbC2rm.workspaces, w.wid = domVerA.workspaceId →
      w.domainVerified = some false ∧ w.joinCodeEnabled = some true) :=
  ⟨(c2_domainVerified_invariant_amended).1 dbC2 1 10 "beta.com" ["T2"] 4 dbC2add 2
      (by decide) (by rfl),
   (c2_domainVerified_invariant_amended).2.1 dbC2 1 1 dbC2rm (by decide) (by decide)
      (by rfl),
   (c2_domainVerified_invariant_amended).2.2.2 dbC2 1 1 domVerA dbC2rm (by rfl)
      (by rfl) (by rfl)⟩

set_option maxRecDepth 4096 in
/-- C3: the join-code contract (length 6, all characters from a 32-symbol
alphabet) holds for the convex/lib/tokens.ts alphabet, but the duplicate
variant's alphabet has only 31 symbols, although its comments claim 32 and
assert the looked-up character is never null.  A byte whose low five bits are
31 indexes past the end: JS yields `undefined` and `code += char!` appends the
text `"undefined"`, so the output for bytes `[31,0,0,0,0,0]` is
`"undefinedAAAAA"`, of length 14, violating the claimed contract. -/
theorem c3_joinCode_alphabetB_mismatch :
    JOIN_CODE_ALPHABET_A.length = 32 ∧
    JOIN_CODE_ALPHABET_B.length = 31 ∧
    (∀ b : Nat, b < 256 →
      ∃ c, joinCodeCharFromByte JOIN_CODE_ALPHABET_A b = some c ∧ c ∈ JOIN_CODE_ALPHABET_A) ∧
    joinCodeCharFromByte JOIN_CODE_ALPHABET_B 31 = none ∧
    generateJoinCode JOIN_CODE_ALPHABET_B [31, 0, 0, 0, 0, 0] = "undefinedAAAAA".toList ∧
    (generateJoinCode JOIN_CODE_ALPHABET_B [31, 0, 0, 0, 0, 0]).length = 14 := by decide

/-- C6: for every sequence of secure-random bytes, the verification token
(24 bytes, base64url without padding) has length exactly 32 and the invite
code (16 bytes) has length exactly 22, and both match `[A-Za-z0-9_-]+`,
using the pure bit-level fallback encoder embedded from the source. -/
theorem c6_token_formats (vbytes ibytes : List Nat)
    (hv : vbytes.length = 24) (hi : ibytes.length = 16) :
    (generateVerificationToken vbytes).length = 32 ∧
    (∀ c ∈ generateVerificationToken vbytes, isBase64UrlChar c = true) ∧
    (generateInviteCode ibytes).length = 22 ∧
    (∀ c ∈ generateInviteCode ibytes, isBase64UrlChar c = true) := by
  refine ⟨?_, ?_, ?_, ?_⟩
  · rw [generateVerificationToken, base64urlEncode_length, hv]
  · exact fun c hc => base64urlEncode_chars vbytes c hc
  · rw [generateInviteCode, base64urlEncode_length, hi]
  · exact fun c hc => base64urlEncode_chars ibytes c hc

/-- Witness for C6 at concrete all-zero byte sequences. -/
theorem c6_token_formats_witness :
    (List.replicate 24 (0 : Nat)).length = 24 ∧ (List.replicate 16 (0 : Nat)).length = 16 ∧
    ((generateVerificationToken (List.replicate 24 0)).length = 32 ∧
     (∀ c ∈ generateVerificationToken (List.replicate 24 0), isBase64UrlChar c = true) ∧
     (generateInviteCode (List.replicate 16 0)).length = 22 ∧
     (∀ c ∈ generateInviteCode (List.replicate 16 0), isBase64UrlChar c = true)) :=
  ⟨by decide, by decide, c6_token_formats _ _ (by decide) (by decide)⟩

end Kiiaren
